import Mathlib

/-!
Shallow embedding of the search100 core (src/src/stemming.cpp, src/src/engine.cpp,
src/src/utils.cpp) and proofs about it.

Strings are modelled as `List Char` (C++ `std::string` over ASCII).  The
`PorterStemmer` class keeps a working string `data` that some helpers mutate and
restore; those helpers are embedded as state-passing functions
`List Char → Nat → (result × List Char)` returning the value together with the
final contents of `data`, exactly as the C++ leaves them on each return path.
-/

set_option synthInstance.maxSize 512

namespace Search100

/-! ## utils.cpp -/

/-- `stringEndsWith` from src/utils.cpp: `diff < 0 → false`, else compare the
trailing `substr.length()` characters. -/
def stringEndsWith (data substr : List Char) : Bool :=
  if data.length < substr.length then false
  else data.drop (data.length - substr.length) == substr

/-- `stringToLower` from src/utils.cpp (`std::tolower` on each char, ASCII). -/
def stringToLower (data : List Char) : List Char :=
  data.map Char.toLower

/-! ## stemming.cpp: constants -/

/-- `STOPWORDS` set from src/stemming.cpp. -/
def STOPWORDS : List String :=
  ["i", "me", "my", "myself", "we", "our", "ours", "ourselves", "you",
   "your", "yours", "yourself", "yourselves", "he", "him", "his", "himself",
   "she", "her", "hers", "herself", "it", "its", "itself", "they", "them",
   "their", "theirs", "themselves", "what", "which", "who", "whom", "this",
   "that", "these", "those", "am", "is", "are", "was", "were", "be", "been",
   "being", "have", "has", "had", "having", "do", "does", "did", "doing", "a",
   "an", "the", "and", "but", "if", "or", "because", "as", "until", "while",
   "of", "at", "by", "for", "with", "about", "against", "between", "into",
   "through", "during", "before", "after", "above", "below", "to", "from",
   "up", "down", "in", "out", "on", "off", "over", "under", "again", "further",
   "then", "once", "here", "there", "when", "where", "why", "how", "all", "any",
   "both", "each", "few", "more", "most", "other", "some", "such", "no", "nor",
   "not", "only", "own", "same", "so", "than", "too", "very", "s", "t", "can",
   "will", "just", "don", "should", "now"]

/-- `PUNCTUATION` from src/stemming.cpp, the 33-character string
of ASCII punctuation marks plus the space character.  A few characters
(double quote, apostrophe, backslash, backtick, the two braces) are written
via their ASCII codes. -/
def PUNCTUATION : List Char :=
  ['!', Char.ofNat 34, '#', '$', '%', '&', Char.ofNat 39, '(', ')', '*', '+',
   ',', ' ', '-', '.', '/', ':', ';', '<', '=', '>', '?', '@', '[',
   Char.ofNat 92, ']', '^', '_', Char.ofNat 96, Char.ofNat 123, '|',
   Char.ofNat 125, '~']

/-- `WORD_STEM_THRESHOLD` from src/stemming.cpp. -/
def WORD_STEM_THRESHOLD : Nat := 3

/-- `checkWordStemmable` from src/stemming.cpp: note that it receives the word
exactly as it appears in the line (no lowercasing happens before the check). -/
def checkWordStemmable (word : List Char) : Bool :=
  !(decide (word.length < WORD_STEM_THRESHOLD) || STOPWORDS.contains (String.mk word))

/-! ## stemming.cpp: PorterStemmer helpers -/

/-- `PorterStemmer::isConsonant`: `a e i o u` are vowels, `y` is a consonant at
position 0 or after a vowel, everything else is a consonant. -/
def isConsonant (d : List Char) : Nat → Bool
  | 0 =>
    let c := d.getD 0 ' '
    if c == 'a' || c == 'e' || c == 'i' || c == 'o' || c == 'u' then false
    else true
  | i + 1 =>
    let c := d.getD (i + 1) ' '
    if c == 'a' || c == 'e' || c == 'i' || c == 'o' || c == 'u' then false
    else if c == 'y' then !(isConsonant d i)
    else true

/-- The `m`-counting loop of `PorterStemmer::getm` (`for (i = start; i <= end; i++)`
with the flag `v` initially true). -/
def measureLoop (t : List Char) (start fin : Nat) : Nat :=
  ((List.range' start (fin + 1 - start)).foldl
    (fun p i =>
      if isConsonant t i && p.2 then (p.1 + 1, false)
      else if !(isConsonant t i) && !p.2 then (p.1, true)
      else p)
    ((0 : Nat), true)).1

/-- `PorterStemmer::getm` as a state-passing function.  The C++ removes the
trailing `suffix_length` characters from `data`, computes `m`, and restores
`data = old_data` on every return path; the second component is the final
`data`. -/
def getmRun (d : List Char) (suffix_length : Nat) : Nat × List Char :=
  let len := d.length - suffix_length
  let t := d.take len
  match (List.range len).find? (fun i => !isConsonant t i) with
  | none => (0, d)
  | some start =>
    match (List.range len).reverse.find? (fun i => decide (start < i) && isConsonant t i) with
    | none => (0, d)
    | some fin =>
      if fin < start then (0, d)
      else (measureLoop t start fin, d)

/-- Value of `getm`. -/
def getmVal (d : List Char) (suffix_length : Nat) : Nat :=
  (getmRun d suffix_length).1

/-- `PorterStemmer::containsVowel` as a state-passing function.  The local
`res` is only ever assigned `true` by the vowel scan; the C++ leaves it
uninitialised when no vowel of `a e i o u` occurs, and the unit tests pin the
behaviour of that path to `false` (testContainsVowel in tests.cpp), so the
no-assignment path is modelled as `false` and control falls through to the
`y` check.  `data` is restored on both return paths. -/
def containsVowelRun (d : List Char) (suffix_length : Nat) : Bool × List Char :=
  let t := d.take (d.length - suffix_length)
  if t.contains 'a' || t.contains 'e' || t.contains 'i' || t.contains 'o'
      || t.contains 'u' then
    (true, d)
  else
    match t.findIdx? (fun c => c == 'y') with
    | none => (false, d)
    | some 0 => (false, d)
    | some (j + 1) => (isConsonant t j, d)

/-- Value of `containsVowel`. -/
def containsVowelVal (d : List Char) (suffix_length : Nat) : Bool :=
  (containsVowelRun d suffix_length).1

/-- `PorterStemmer::doubleConsonantSuffix` as a state-passing function.  The
`len < 2` early return happens before `data` is modified; the other path
restores `data`. -/
def doubleConsonantSuffixRun (d : List Char) (suffix_length : Nat) : Bool × List Char :=
  let len := d.length - suffix_length
  if len < 2 then (false, d)
  else
    let t := d.take len
    if isConsonant t (len - 1) then (t.getD (len - 2) ' ' == t.getD (len - 1) ' ', d)
    else (false, d)

/-- Value of `doubleConsonantSuffix`. -/
def doubleConsonantSuffixVal (d : List Char) (suffix_length : Nat) : Bool :=
  (doubleConsonantSuffixRun d suffix_length).1

/-- `PorterStemmer::endsCVC` as a state-passing function.  The C++ removes the
suffix from `data` BEFORE the `len < 3` check and that early return does NOT
restore `old_data`, so on that path the working string stays truncated; the
normal path restores it. -/
def endsCVCRun (d : List Char) (suffix_length : Nat) : Bool × List Char :=
  let len := d.length - suffix_length
  let t := d.take len
  if len < 3 then (false, t)
  else
    let c2 := t.getD (len - 1) ' '
    if isConsonant t (len - 3) && !(isConsonant t (len - 2)) && isConsonant t (len - 1) then
      (!(c2 == 'w' || c2 == 'x' || c2 == 'y'), d)
    else (false, d)

/-! ## stemming.cpp: suffix tables -/

/-- `STEP_2_SUFFIXES`. -/
def STEP_2_SUFFIXES : List (List Char × List Char) :=
  [("ational".toList, "ate".toList),
   ("tional".toList, "tion".toList),
   ("enci".toList, "ence".toList),
   ("anci".toList, "ance".toList),
   ("izer".toList, "ize".toList),
   ("abli".toList, "able".toList),
   ("alli".toList, "al".toList),
   ("entli".toList, "ent".toList),
   ("eli".toList, "e".toList),
   ("ousli".toList, "ous".toList),
   ("ization".toList, "ize".toList),
   ("ation".toList, "ate".toList),
   ("ator".toList, "ate".toList),
   ("alism".toList, "al".toList),
   ("iveness".toList, "ive".toList),
   ("fulness".toList, "ful".toList),
   ("ousness".toList, "ous".toList),
   ("aliti".toList, "al".toList),
   ("iviti".toList, "ive".toList),
   ("biliti".toList, "ble".toList)]

/-- `STEP_3_SUFFIXES`. -/
def STEP_3_SUFFIXES : List (List Char × List Char) :=
  [("icate".toList, "ic".toList),
   ("ative".toList, "".toList),
   ("alize".toList, "al".toList),
   ("iciti".toList, "ic".toList),
   ("ical".toList, "ic".toList),
   ("ful".toList, "".toList),
   ("ness".toList, "".toList)]

/-- `STEP_4_SUFFIXES`. -/
def STEP_4_SUFFIXES : List (List Char × List Char) :=
  [("al".toList, "".toList),
   ("ance".toList, "".toList),
   ("ence".toList, "".toList),
   ("er".toList, "".toList),
   ("ic".toList, "".toList),
   ("able".toList, "".toList),
   ("ible".toList, "".toList),
   ("ant".toList, "".toList),
   ("ement".toList, "".toList),
   ("ment".toList, "".toList),
   ("ent".toList, "".toList),
   ("ou".toList, "".toList),
   ("ism".toList, "".toList),
   ("ate".toList, "".toList),
   ("iti".toList, "".toList),
   ("ous".toList, "".toList),
   ("ive".toList, "".toList),
   ("ize".toList, "".toList)]

/-- `STEP_2_PENULT_MAP` (`getSuffixBounds` returns `(0, 0)` for a missing key). -/
def STEP_2_PENULT_MAP (c : Char) : Nat × Nat :=
  if c == 'a' then (0, 2)
  else if c == 'c' then (2, 4)
  else if c == 'e' then (4, 5)
  else if c == 'l' then (5, 10)
  else if c == 'o' then (10, 13)
  else if c == 's' then (13, 17)
  else if c == 't' then (17, 20)
  else if c == 'u' then (20, 21)
  else (0, 0)

/-- `STEP_3_ULT_MAP`. -/
def STEP_3_ULT_MAP (c : Char) : Nat × Nat :=
  if c == 'e' then (0, 3)
  else if c == 'i' then (3, 4)
  else if c == 'l' then (4, 6)
  else if c == 's' then (6, 7)
  else (0, 0)

/-- `STEP_4_PENULT_MAP`. -/
def STEP_4_PENULT_MAP (c : Char) : Nat × Nat :=
  if c == 'a' then (0, 1)
  else if c == 'c' then (1, 3)
  else if c == 'e' then (3, 4)
  else if c == 'i' then (4, 5)
  else if c == 'l' then (5, 7)
  else if c == 'n' then (7, 11)
  else if c == 'o' then (11, 12)
  else if c == 's' then (12, 13)
  else if c == 't' then (13, 15)
  else if c == 'u' then (15, 16)
  else if c == 'v' then (16, 17)
  else if c == 'z' then (17, 18)
  else (0, 0)

/-- The rules visited by `processSuffixArray(arr, start, end, m)`:
indices `start ≤ i < end` of the table. -/
def sliceRules (rules : List (List Char × List Char)) (b : Nat × Nat) :
    List (List Char × List Char) :=
  (rules.drop b.1).take (b.2 - b.1)

/-- `PorterStemmer::processSuffixArray`: first suffix `s1` that matches AND has
`getm(len s1) > m` is replaced by `s2` (then `break`); a suffix that merely
matches without the measure condition does not stop the scan. -/
def processSuffixArray (d : List Char) (rules : List (List Char × List Char)) (m : Nat) :
    List Char :=
  match rules with
  | [] => d
  | (s1, s2) :: rest =>
    if stringEndsWith d s1 then
      if getmVal d s1.length > m then d.take (d.length - s1.length) ++ s2
      else processSuffixArray d rest m
    else processSuffixArray d rest m

/-! ## stemming.cpp: the steps -/

/-- `PorterStemmer::step1a`. -/
def step1a (d : List Char) : List Char :=
  if stringEndsWith d ("sses".toList) then d.take (d.length - 4) ++ "ss".toList
  else if stringEndsWith d ("ies".toList) then d.take (d.length - 3) ++ "i".toList
  else if stringEndsWith d ("s".toList) && !(stringEndsWith d ("ss".toList)) then
    d.dropLast
  else d

/-- The follow-up block of `PorterStemmer::step1b`, run after an `ed`/`ing`
suffix was stripped.  `endsCVC(0)` removes a zero-length suffix, so its
non-restoring early return is harmless here, but we thread its state anyway. -/
def step1bFollowup (d : List Char) : List Char :=
  if stringEndsWith d ("at".toList) || stringEndsWith d ("bl".toList)
      || stringEndsWith d ("iz".toList) then
    d ++ "e".toList
  else if doubleConsonantSuffixVal d 0 then
    if !(stringEndsWith d ("l".toList) || stringEndsWith d ("s".toList)
        || stringEndsWith d ("z".toList)) then
      d.dropLast
    else d
  else
    let p := endsCVCRun d 0
    if p.1 then
      if getmVal p.2 0 == 1 then p.2 ++ "e".toList else p.2
    else p.2

/-- `PorterStemmer::step1b`. -/
def step1b (d : List Char) : List Char :=
  if stringEndsWith d ("eed".toList) then
    if getmVal d 3 > 0 then d.take (d.length - 3) ++ "ee".toList else d
  else if stringEndsWith d ("ing".toList) then
    if containsVowelVal d 3 then step1bFollowup (d.take (d.length - 3)) else d
  else if stringEndsWith d ("ed".toList) then
    if containsVowelVal d 2 then step1bFollowup (d.take (d.length - 2)) else d
  else d

/-- `PorterStemmer::step1c`. -/
def step1c (d : List Char) : List Char :=
  if stringEndsWith d ("y".toList) then
    if containsVowelVal d 1 then d.take (d.length - 1) ++ "i".toList else d
  else d

/-- `PorterStemmer::step2`. -/
def step2 (d : List Char) : List Char :=
  if d.length < 2 then d
  else processSuffixArray d (sliceRules STEP_2_SUFFIXES (STEP_2_PENULT_MAP (d.getD (d.length - 2) ' '))) 0

/-- `PorterStemmer::step3`. -/
def step3 (d : List Char) : List Char :=
  if d.length < 1 then d
  else processSuffixArray d (sliceRules STEP_3_SUFFIXES (STEP_3_ULT_MAP (d.getD (d.length - 1) ' '))) 0

/-- `PorterStemmer::step4` (with the special `-ion` handling and its early
return). -/
def step4 (d : List Char) : List Char :=
  if d.length < 2 then d
  else if stringEndsWith d ("ion".toList) then
    let t := d.take (d.length - 3)
    if stringEndsWith t ("s".toList) || stringEndsWith t ("t".toList) then
      if getmVal t 0 > 1 then t else d
    else d
  else processSuffixArray d (sliceRules STEP_4_SUFFIXES (STEP_4_PENULT_MAP (d.getD (d.length - 2) ' '))) 1

/-- `PorterStemmer::step5a`.  Due to short-circuit evaluation `endsCVC(1)` runs
only when `m == 1`; its result `p` carries the (possibly truncated, see
`endsCVCRun`) working string that the final `replace` acts on. -/
def step5a (d : List Char) : List Char :=
  if stringEndsWith d ("e".toList) then
    let m := getmVal d 1
    if m > 1 then d.take (d.length - 1)
    else if m == 1 then
      let p := endsCVCRun d 1
      if !p.1 then p.2.take (p.2.length - 1) else p.2
    else d
  else d

/-- `PorterStemmer::step5b`. -/
def step5b (d : List Char) : List Char :=
  let m := getmVal d 0
  if decide (m > 1) && doubleConsonantSuffixVal d 0 && stringEndsWith d ("l".toList) then
    d.take (d.length - 1)
  else d

/-- `PorterStemmer::stem`: lowercase, then steps 1a–5b in order. -/
def stem (text : List Char) : List Char :=
  step5b (step5a (step4 (step3 (step2 (step1c (step1b (step1a (stringToLower text))))))))

/-! Sanity checks against the step-1 unit tests in tests.cpp. -/

example : step1a ("caresses".toList) = "caress".toList := by decide
example : step1a ("ponies".toList) = "poni".toList := by decide
example : step1b ("agreed".toList) = "agree".toList := by decide
example : step1b ("motoring".toList) = "motor".toList := by decide
example : step1b ("hopping".toList) = "hop".toList := by decide
example : step1b ("filing".toList) = "file".toList := by decide
example : step1c ("happy".toList) = "happi".toList := by decide
example : step1c ("sky".toList) = "sky".toList := by decide
example : stem ("relational".toList) = "relat".toList := by decide
example : stem ("conditional".toList) = "condit".toList := by decide
example : stem ("rational".toList) = "ration".toList := by decide
example : stem ("caresses".toList) = "caress".toList := by decide
example : stem ("hopping".toList) = "hop".toList := by decide
example : stem ("sky".toList) = "sky".toList := by decide
example : stem ("happy".toList) = "happi".toList := by decide
example : stem ("controll".toList) = "control".toList := by decide
example : stem ("roll".toList) = "roll".toList := by decide

/-! ## stemming.cpp: Stem, Occurrence and the tokenizer `stemLine` -/

/-- The `Stem` class. -/
structure Stem where
  index : Nat
  original : List Char
  stemmed : List Char
deriving Repr, DecidableEq

/-- `PorterStemmer::stemWord`. -/
def stemWord (word : List Char) (index : Nat) : Stem :=
  { index := index, original := word, stemmed := stem word }

/-- One character of the whitespace set `" \n\r\t"` used by `stemLine`
for trimming. -/
def isSpaceChar (c : Char) : Bool :=
  c == ' ' || c == '\n' || c == '\r' || c == '\t'

/-- The inner loop of `PorterStemmer::stemLine` over one space-delimited word:
repeatedly find the first punctuation character (`find_first_of(PUNCTUATION, prev)`),
emit the fragment before it when `checkWordStemmable` passes, advance `index`
by the fragment length plus one per punctuation character, and finally emit
the fragment after the last punctuation character, advancing `index` by its
length plus one for the consumed space.  The first argument is fuel for
structural recursion; `w.length < fuel` makes it total (each recursive call
strictly shrinks the word). -/
def processWordF : Nat → List Char → Nat → List Stem × Nat
  | 0, _, index => ([], index)
  | fuel + 1, w, index =>
    let pre := w.takeWhile (fun c => !PUNCTUATION.contains c)
    match w.dropWhile (fun c => !PUNCTUATION.contains c) with
    | [] =>
      ((if checkWordStemmable pre then [stemWord pre index] else []),
       index + pre.length + 1)
    | _ :: rest =>
      let emitted :=
        if decide (pre.length > 0) && checkWordStemmable pre then [stemWord pre index]
        else []
      let r := processWordF fuel rest (index + pre.length + 1)
      (emitted ++ r.1, r.2)

/-- `processWordF` with enough fuel. -/
def processWord (w : List Char) (index : Nat) : List Stem × Nat :=
  processWordF (w.length + 1) w index

/-- The outer tokenization loop of `stemLine`
(`while (std::getline(iss, word, ' '))`): take the next word up to a space,
process it, and continue after the consumed space.  Again fueled;
`t.length < fuel` suffices. -/
def stemLoopF : Nat → List Char → Nat → List Stem
  | 0, _, _ => []
  | fuel + 1, t, index =>
    if t.isEmpty then []
    else
      let w := t.takeWhile (fun c => !(c == ' '))
      let r := processWord w index
      match t.dropWhile (fun c => !(c == ' ')) with
      | [] => r.1
      | _ :: rest => r.1 ++ stemLoopF fuel rest r.2

/-- `PorterStemmer::stemLine`: count the leading whitespace characters as the
starting column, trim trailing then leading whitespace, and run the
tokenization loop.  (When the line is entirely whitespace the C++ index
arithmetic on `npos` is irrelevant: the loop body never runs and no stems are
produced, as here.) -/
def stemLine (text : List Char) : List Stem :=
  let index := (text.takeWhile isSpaceChar).length
  let t := (text.rdropWhile isSpaceChar).dropWhile isSpaceChar
  stemLoopF (t.length + 1) t index

/-- The sub-words the punctuation loop of `stemLine` considers in one
space-delimited word, each paired with the column at which it starts: the
same traversal as `processWordF`, with the `checkWordStemmable` filter
removed (and only non-empty fragments listed).  Used to state the tokenizer's
filter as an exact characterization: the emitted stems are precisely the
stemmable sub-words. -/
def subWordsF : Nat → List Char → Nat → List (Nat × List Char)
  | 0, _, _ => []
  | fuel + 1, w, index =>
    let pre := w.takeWhile (fun c => !PUNCTUATION.contains c)
    match w.dropWhile (fun c => !PUNCTUATION.contains c) with
    | [] => if pre.isEmpty then [] else [(index, pre)]
    | _ :: rest =>
      (if pre.isEmpty then [] else [(index, pre)]) ++
      subWordsF fuel rest (index + pre.length + 1)

/-- All sub-words of a line with their columns: the traversal of `stemLoopF`
with the stemmability filter removed. -/
def lineSubWordsF : Nat → List Char → Nat → List (Nat × List Char)
  | 0, _, _ => []
  | fuel + 1, t, index =>
    if t.isEmpty then []
    else
      let w := t.takeWhile (fun c => !(c == ' '))
      match t.dropWhile (fun c => !(c == ' ')) with
      | [] => subWordsF (w.length + 1) w index
      | _ :: rest =>
        subWordsF (w.length + 1) w index ++
        lineSubWordsF fuel rest (processWord w index).2

/-- The sub-words of a line, with the same trimming and starting column as
`stemLine`. -/
def lineSubWords (text : List Char) : List (Nat × List Char) :=
  let index := (text.takeWhile isSpaceChar).length
  let t := (text.rdropWhile isSpaceChar).dropWhile isSpaceChar
  lineSubWordsF (t.length + 1) t index

/-! Tokenizer sanity checks (spec §4.2 and §8 examples). -/

example :
    stemLine ("hello#world".toList) =
      [{ index := 0, original := "hello".toList, stemmed := "hello".toList },
       { index := 6, original := "world".toList, stemmed := "world".toList }] := by
  decide

example :
    stemLine ("   dog.".toList) =
      [{ index := 3, original := "dog".toList, stemmed := "dog".toList }] := by
  decide

example :
    stemLine ("cats and dogs".toList) =
      [{ index := 0, original := "cats".toList, stemmed := "cat".toList },
       { index := 9, original := "dogs".toList, stemmed := "dog".toList }] := by
  decide

example :
    stemLine ("the dog runs".toList) =
      [{ index := 4, original := "dog".toList, stemmed := "dog".toList },
       { index := 8, original := "runs".toList, stemmed := "run".toList }] := by
  decide

/-! ## engine.cpp: data model

`std::map` is modelled as an association list; `std::map::operator[]`
(which default-inserts a missing key) is `alGetOrInsert`.  The C++ keeps keys
sorted while we append new keys at the end, so equality of two maps is always
stated extensionally through `alFind?` (which is exactly `std::map` content
equality).  `std::set<int>` is modelled as a sorted duplicate-free
`List Nat`. -/

/-- The `Occurrence` class (`document_id` is always a valid id ≥ 0 when an
occurrence is created, so it is a `Nat` here). -/
structure Occurrence where
  index : Nat
  original : List Char
  stemmed : List Char
  document_id : Nat
  line : Nat
deriving Repr, DecidableEq

/-- `Occurrence::fromStem`. -/
def Occurrence.fromStem (s : Stem) (document_id line : Nat) : Occurrence :=
  { index := s.index, original := s.original, stemmed := s.stemmed,
    document_id := document_id, line := line }

/-- `Occurrence::toJSON`: the `(line, index, original)` record written to
`term_occurrences.json`. -/
def Occurrence.toJSON (o : Occurrence) : Nat × Nat × List Char :=
  (o.line, o.index, o.original)

/-- `map.find(k)` / `map.count(k)` combined: the value stored at `k`, if any. -/
def alFind? {α β : Type} [BEq α] (m : List (α × β)) (k : α) : Option β :=
  (m.find? (fun p => p.1 == k)).map (fun p => p.2)

/-- `map[k]` (std::map::operator[]): returns the stored value, default-inserting
`dflt` when the key is absent; also returns the possibly-extended map. -/
def alGetOrInsert {α β : Type} [BEq α] (m : List (α × β)) (k : α) (dflt : β) :
    β × List (α × β) :=
  match alFind? m k with
  | some v => (v, m)
  | none => (dflt, m ++ [(k, dflt)])

/-- `map[k] = v`. -/
def alSet {α β : Type} [BEq α] (m : List (α × β)) (k : α) (v : β) : List (α × β) :=
  if (m.find? (fun p => p.1 == k)).isSome then
    m.map (fun p => if p.1 == k then (k, v) else p)
  else m ++ [(k, v)]

/-- `std::set<int>::insert` on a sorted duplicate-free list. -/
def setInsert (s : List Nat) (x : Nat) : List Nat :=
  match s with
  | [] => [x]
  | y :: t =>
    if x < y then x :: y :: t
    else if x == y then y :: t
    else y :: setInsert t x

/-- `std::set_union` (set semantics; the engine never stores the result back
into the index, so only membership matters). -/
def setUnion (a b : List Nat) : List Nat :=
  a ++ b.filter (fun x => !a.contains x)

/-- `std::set_intersection`. -/
def setInter (a b : List Nat) : List Nat :=
  a.filter (fun x => b.contains x)

/-- The index owned by `SearchEngine`: `documents`, `term_occurrences`,
`term_documents` and the `doc_id_tracker` counter (initially `-1`). -/
structure EngineState where
  documents : List (Nat × List Char)
  term_occurrences : List (Nat × List (List Char × List Occurrence))
  term_documents : List (List Char × List Nat)
  doc_id_tracker : Int
deriving Repr, DecidableEq

/-- A fresh `SearchEngine`'s index. -/
def emptyEngine : EngineState :=
  { documents := [], term_occurrences := [], term_documents := [],
    doc_id_tracker := -1 }

/-! ## engine.cpp: ranking -/

/-- Loop body of `SearchEngine::findCommonDocuments`: note that whenever the
running set `common_document_ids` is empty the code takes a union with the
current term's documents instead of an intersection — including when it became
empty because of a previous term.  `term_documents[term.stemmed]` is
`operator[]`, so unknown terms are default-inserted. -/
def findCommonDocumentsLoop (td : List (List Char × List Nat)) (query_terms : List Stem)
    (common : List Nat) : List Nat × List (List Char × List Nat) :=
  match query_terms with
  | [] => (common, td)
  | q :: rest =>
    let p := alGetOrInsert td q.stemmed []
    let common' := if common.isEmpty then setUnion common p.1 else setInter common p.1
    findCommonDocumentsLoop p.2 rest common'

/-- `SearchEngine::findCommonDocuments`. -/
def findCommonDocuments (st : EngineState) (query_terms : List Stem) :
    List Nat × EngineState :=
  let r := findCommonDocumentsLoop st.term_documents query_terms []
  (r.1, { st with term_documents := r.2 })

/-- `SearchEngine::computeTF`: both subscripts are `operator[]`, so a missing
document or term entry is default-inserted; the divisor is the size of
`term_occurrences[document_id]` evaluated after the inner insertion, i.e. the
number of distinct terms recorded for the document. -/
def computeTF (st : EngineState) (term : List Char) (document_id : Nat) :
    ℚ × EngineState :=
  let p1 := alGetOrInsert st.term_occurrences document_id []
  let p2 := alGetOrInsert p1.1 term []
  (((p2.1.length : ℚ)) / ((p2.2.length : ℚ)),
   { st with term_occurrences := alSet p1.2 document_id p2.2 })

/-- The quantity inside the logarithm of `SearchEngine::computeIDF`:
`total_docs / (df + 1)` where the code sets
`total_docs = term_documents.size()` — the number of distinct indexed TERMS —
and `df` is the size of `term_documents[term]` (0 when absent; `operator[]`
is only reached after `count(term)` is positive, so no insertion happens). -/
def computeIDFArg (st : EngineState) (term : List Char) : ℚ :=
  let total_docs : ℚ := (st.term_documents.length : ℚ)
  let df : ℚ :=
    match alFind? st.term_documents term with
    | none => 0
    | some s => (s.length : ℚ)
  total_docs / (df + 1)

/-- The quantity the SPEC prescribes inside the logarithm:
`total_documents / (documents_containing_t + 1)` with `total_documents` the
number of indexed documents (the size of the `documents` map).  Stated from
the spec for comparison with `computeIDFArg`. -/
def specIDFArg (st : EngineState) (term : List Char) : ℚ :=
  let total_docs : ℚ := (st.documents.length : ℚ)
  let df : ℚ :=
    match alFind? st.term_documents term with
    | none => 0
    | some s => (s.length : ℚ)
  total_docs / (df + 1)

/-- The index-state effect of `SearchEngine::computeTfIdf`: `computeTF` may
insert empty entries, `computeIDF` only reads. -/
def computeTfIdfSt (st : EngineState) (term : List Char) (document_id : Nat) :
    EngineState :=
  (computeTF st term document_id).2

/-- Inner loop of `SearchEngine::getRelevantScores`
(`for (int document_id : document_ids)`): documents are visited in increasing
order (`std::set` iteration); each visit calls `computeTfIdf` and records the
`(term, document)` tuple. -/
def scoreDocsLoop (st : EngineState) (term : Stem) (docs : List Nat) :
    List (Stem × Nat) × EngineState :=
  match docs with
  | [] => ([], st)
  | d :: rest =>
    let st1 := computeTfIdfSt st term.stemmed d
    let r := scoreDocsLoop st1 term rest
    ((term, d) :: r.1, r.2)

/-- Outer loop of `SearchEngine::getRelevantScores`: with the OR strategy
`document_ids = term_documents[term.stemmed]` re-reads (and possibly
default-inserts) per term; with AND the precomputed common set is used. -/
def getRelevantScoresLoop (st : EngineState) (query_terms : List Stem)
    (search_strategy_and : Bool) (commonDocs : List Nat) :
    List (Stem × Nat) × EngineState :=
  match query_terms with
  | [] => ([], st)
  | q :: rest =>
    let p :=
      if search_strategy_and then (commonDocs, st)
      else
        let g := alGetOrInsert st.term_documents q.stemmed []
        (g.1, { st with term_documents := g.2 })
    let r1 := scoreDocsLoop p.2 q p.1
    let r2 := getRelevantScoresLoop r1.2 rest search_strategy_and commonDocs
    (r1.1 ++ r2.1, r2.2)

/-- `SearchEngine::getRelevantScores`, restricted to what the index state and
the set of produced `(term, document)` tuples are.  The C++ finally sorts the
tuples by descending TF-IDF score; sorting permutes the returned vector and
touches no map, so it does not affect the index state; the tuples are
returned here in generation order. -/
def getRelevantScoresSt (st : EngineState) (query_terms : List Stem)
    (search_strategy_and : Bool) : List (Stem × Nat) × EngineState :=
  if search_strategy_and then
    let c := findCommonDocuments st query_terms
    getRelevantScoresLoop c.2 query_terms search_strategy_and c.1
  else getRelevantScoresLoop st query_terms search_strategy_and []

/-- Result-assembly access of `SearchEngine::search` for one score tuple:
`term_occurrences[document_id][stem.stemmed]`, two `operator[]`s. -/
def searchResultStep (st : EngineState) (pr : Stem × Nat) : EngineState :=
  let p1 := alGetOrInsert st.term_occurrences pr.2 []
  let p2 := alGetOrInsert p1.1 pr.1.stemmed []
  { st with term_occurrences := alSet p1.2 pr.2 p2.2 }

/-- The index state after `SearchEngine::search(query, strategy)`: tokenize the
query, return unchanged when no terms survive, otherwise run
`getRelevantScores` and the result-assembly loop. -/
def searchIndexAfter (st : EngineState) (query : List Char)
    (search_strategy_and : Bool) : EngineState :=
  let terms := stemLine query
  if terms.isEmpty then st
  else
    let r := getRelevantScoresSt st terms search_strategy_and
    r.1.foldl searchResultStep r.2

/-- The candidate set the SPEC prescribes for the AND strategy: the
intersection of `term_documents[t]` over all `t` in the query stems (empty if
any term is absent).  Stated from the spec for comparison with
`findCommonDocuments`. -/
def specANDCandidates (st : EngineState) (query_terms : List Stem) : List Nat :=
  match query_terms with
  | [] => []
  | q :: rest =>
    rest.foldl
      (fun acc r => setInter acc ((alFind? st.term_documents r.stemmed).getD []))
      ((alFind? st.term_documents q.stemmed).getD [])

/-! ## engine.cpp: indexing and persistence

The three JSON artifacts (`documents.json`, `term_occurrences.json`,
`term_documents.json`) are modelled structurally.  `term_occurrences.json`
keys documents by `std::to_string(document_id)`; decimal rendering is a
bijection on the ids in use, so the key is kept as the `Nat` itself. -/

/-- The contents of the three files written by `writeJSON` /
read by `readJSON`.  A default-constructed `nlohmann::json` is JSON `null`;
`documents_json` and `term_occurrences_json` receive keys in `indexDocument`
for every indexed document and are therefore objects whenever anything is
written, but `term_documents_json` is only ever assigned per indexed stem, so
for a corpus whose documents produce no stems it stays `null` — modelled as
`none` (an object is `some` of its entry list). -/
structure JsonArtifacts where
  documents_json : List (List Char × Nat)
  term_occurrences_json : List (Nat × List (List Char × List (Nat × Nat × List Char)))
  term_documents_json : Option (List (List Char × List Nat))
deriving Repr, DecidableEq

/-- The three default-constructed (`null`) JSON values at the start of
`indexCorpusDirectory`; the first two become objects as soon as the first
document is indexed and are only consumed in that state. -/
def emptyArtifacts : JsonArtifacts :=
  { documents_json := [], term_occurrences_json := [], term_documents_json := none }

/-- Per-stem body of the `while (getline(fs, line))` loop of
`SearchEngine::indexDocument`: push the occurrence into
`term_occurrences[document_id][stem.stemmed]`, insert the document into
`term_documents[stem.stemmed]`, and mirror both into the JSON objects
(`term_documents_json[stem.stemmed]` is assigned the just-updated set). -/
def indexStem (document_id line : Nat) (st : EngineState) (a : JsonArtifacts)
    (s : Stem) : EngineState × JsonArtifacts :=
  let occ := Occurrence.fromStem s document_id line
  let inner := (alFind? st.term_occurrences document_id).getD []
  let occs := (alFind? inner s.stemmed).getD []
  let to2 := alSet st.term_occurrences document_id
    (alSet inner s.stemmed (occs ++ [occ]))
  let tdset2 := setInsert ((alFind? st.term_documents s.stemmed).getD []) document_id
  let td2 := alSet st.term_documents s.stemmed tdset2
  let innerj := (alFind? a.term_occurrences_json document_id).getD []
  let occsj := (alFind? innerj s.stemmed).getD []
  let toj2 := alSet a.term_occurrences_json document_id
    (alSet innerj s.stemmed (occsj ++ [occ.toJSON]))
  let tdj2 := alSet (a.term_documents_json.getD []) s.stemmed tdset2
  ({ st with term_occurrences := to2, term_documents := td2 },
   { a with term_occurrences_json := toj2, term_documents_json := some tdj2 })

/-- `SearchEngine::indexDocument`: assign the next document id, create the
(possibly forever empty) entries for the document in `documents`,
`term_occurrences` and the JSON objects, then index every line. -/
def indexDocument (st : EngineState) (a : JsonArtifacts) (path : List Char)
    (lines : List (List Char)) : EngineState × JsonArtifacts :=
  let document_id := (st.doc_id_tracker + 1).toNat
  let st1 : EngineState :=
    { st with doc_id_tracker := st.doc_id_tracker + 1,
              documents := alSet st.documents document_id path,
              term_occurrences := alSet st.term_occurrences document_id [] }
  let a1 : JsonArtifacts :=
    { a with documents_json := alSet a.documents_json path document_id,
             term_occurrences_json := alSet a.term_occurrences_json document_id [] }
  (lines.foldl
    (fun (q : (EngineState × JsonArtifacts) × Nat) line =>
      ((stemLine line).foldl
        (fun (w : EngineState × JsonArtifacts) s => indexStem document_id q.2 w.1 w.2 s)
        q.1,
       q.2 + 1))
    ((st1, a1), 0)).1

/-- `SearchEngine::indexCorpusDirectory` on the fresh-build path (no cached
data): walk the corpus files in traversal order, index those with extension
`.txt` (`fp.extension().string() == ".txt"`, modelled as ending in `.txt`),
and write the JSON artifacts only when at least one document was indexed
(`some` = files written, `none` = empty-corpus warning, nothing written). -/
def indexCorpusDirectory (corpus : List (List Char × List (List Char))) :
    EngineState × Option JsonArtifacts :=
  let r := corpus.foldl
    (fun (q : EngineState × JsonArtifacts) f =>
      if stringEndsWith f.1 (".txt".toList) then indexDocument q.1 q.2 f.1 f.2 else q)
    (emptyEngine, emptyArtifacts)
  if r.1.documents.length == 0 then (r.1, none) else (r.1, some r.2)

/-- Inner loops of `SearchEngine::loadFromFiles` for one document: for every
term of `term_occurrences_json[to_string(document_id)]` and every recorded
occurrence, push a parsed `Occurrence` into
`term_occurrences[document_id][term]`.  A document whose JSON entry is the
empty object therefore never creates its `term_occurrences[document_id]`
entry. -/
def loadDocOccurrences (document_id : Nat)
    (innerj : List (List Char × List (Nat × Nat × List Char)))
    (to_ : List (Nat × List (List Char × List Occurrence))) :
    List (Nat × List (List Char × List Occurrence)) :=
  innerj.foldl
    (fun acc tj =>
      tj.2.foldl
        (fun acc2 oj =>
          let parsed : Occurrence :=
            { document_id := document_id, stemmed := tj.1, original := oj.2.2,
              index := oj.2.1, line := oj.1 }
          let inner := (alFind? acc2 document_id).getD []
          let lst := (alFind? inner tj.1).getD []
          alSet acc2 document_id (alSet inner tj.1 (lst ++ [parsed])))
        acc)
    to_

/-- `SearchEngine::loadFromFiles`: rebuild `documents` and `term_occurrences`
from `documents.json` and `term_occurrences.json`, then set `term_documents`
from `term_documents.json` via `get<std::map<...>>()`.  When that artifact is
JSON `null` (a corpus whose documents produced no stems), `get` throws a type
error AFTER the loop has run; the exception propagates out of `load`, so the
partially rebuilt state is discarded — modelled as `none`.  `doc_id_tracker`
is not restored.  (`nlohmann` iterates object keys in sorted order while this
list keeps insertion order; each document id occurs at most once here, so the
resulting map contents do not depend on the iteration order.) -/
def loadFromFiles (a : JsonArtifacts) : Option EngineState :=
  let r := a.documents_json.foldl
    (fun (st : EngineState) pj =>
      let document_id := pj.2
      let innerj := (alFind? a.term_occurrences_json document_id).getD []
      { st with documents := alSet st.documents document_id pj.1,
                term_occurrences := loadDocOccurrences document_id innerj st.term_occurrences })
    emptyEngine
  match a.term_documents_json with
  | none => none
  | some td => some { r with term_documents := td }

/-! ## engine.cpp: constructor (corpus path check) -/

/-- `std::filesystem::path::filename()` in the POSIX generic format: the part
of the path after the last directory separator (empty when the path is empty
or ends with a separator). -/
def pathFilename (s : List Char) : List Char :=
  (s.reverse.takeWhile (fun c => !(c == '/'))).reverse

/-- `std::filesystem::path::has_filename()`: the filename component is
non-empty.  This is a purely syntactic test on the path string; it never
consults the filesystem. -/
def pathHasFilename (s : List Char) : Bool :=
  !(pathFilename s).isEmpty

/-- `SearchEngine::SearchEngine(corpus_directory_path_str)` throws exactly when
`corpus_directory_path.has_filename()` holds. -/
def searchEngineCtorThrows (corpus_directory_path_str : List Char) : Bool :=
  pathHasFilename corpus_directory_path_str

/-- What a path refers to on disk (for stating the spec's claim about the
constructor, which the code never actually queries). -/
inductive FSEntry where
  | file : FSEntry
  | directory : FSEntry
deriving Repr, DecidableEq

/-- A filesystem assigns to some paths an entry kind. -/
def FileSystem : Type := List Char → Option FSEntry

/-- A filesystem on which the path `corpus` is an existing directory. -/
def fsWithCorpusDir : FileSystem :=
  fun p => if p == ("corpus".toList) then some FSEntry.directory else none

/-! ## Concrete corpora used as inputs in the theorems below -/

/-- The spec §8 end-to-end corpus: `a.txt` = `cats and dogs`,
`b.txt` = `the dog runs`. -/
def corpusAB : List (List Char × List (List Char)) :=
  [(("a.txt".toList), [("cats and dogs".toList)]),
   (("b.txt".toList), [("the dog runs".toList)])]

/-- The engine state after freshly indexing `corpusAB`. -/
def stAB : EngineState := (indexCorpusDirectory corpusAB).1

/-- A corpus with a single empty text file. -/
def corpusEmptyFile : List (List Char × List (List Char)) :=
  [(("empty.txt".toList), [])]

/-- A corpus mixing an empty text file with a non-empty one (so some stem is
indexed and all three JSON artifacts are objects). -/
def corpusMixed : List (List Char × List (List Char)) :=
  [(("empty.txt".toList), []), (("a.txt".toList), [("cats and dogs".toList)])]

/-- The artifacts written after freshly indexing `corpusMixed`. -/
def artifactsMixed : JsonArtifacts :=
  ((indexCorpusDirectory corpusMixed).2).getD emptyArtifacts

/-- The index reconstructed by `load()` from `artifactsMixed`. -/
def reloadedMixed : EngineState :=
  (loadFromFiles artifactsMixed).getD emptyEngine

/-- The artifacts written after freshly indexing `corpusEmptyFile` (its
`term_documents.json` is JSON `null`). -/
def artifactsEmptyOnly : JsonArtifacts :=
  ((indexCorpusDirectory corpusEmptyFile).2).getD emptyArtifacts

/-- A corpus whose single document repeats one term three times
(`dogs`, `dog`, `dogging` all stem to `dog`). -/
def corpusRepeat : List (List Char × List (List Char)) :=
  [(("c.txt".toList), [("dogs dog dogging".toList)])]

/-- The engine state after freshly indexing `corpusRepeat`. -/
def stRepeat : EngineState := (indexCorpusDirectory corpusRepeat).1

example :
    stAB.term_documents =
      [(("cat".toList), [0]), (("dog".toList), [0, 1]), (("run".toList), [1])] := by
  decide

example : stAB.documents = [(0, "a.txt".toList), (1, "b.txt".toList)] := by decide

/-! ## Theorems for the claims (concrete evaluations) -/

/-- Unfolding `computeIDFArg` when the term is present (kernel reduction of
`Rat` division is not available, so rational values are handled through
rewriting and `norm_num`). -/
theorem computeIDFArg_eq (st : EngineState) (term : List Char) (s : List Nat)
    (h : alFind? st.term_documents term = some s) :
    computeIDFArg st term = (st.term_documents.length : ℚ) / ((s.length : ℚ) + 1) := by
  unfold computeIDFArg
  rw [h]

/-- Unfolding `specIDFArg` when the term is present. -/
theorem specIDFArg_eq (st : EngineState) (term : List Char) (s : List Nat)
    (h : alFind? st.term_documents term = some s) :
    specIDFArg st term = (st.documents.length : ℚ) / ((s.length : ℚ) + 1) := by
  unfold specIDFArg
  rw [h]

/-- Claim C1: the claim says the IDF used in scoring is
`ln(N / (df + 1))` with `N` the number of indexed documents.  The code's
`computeIDF` instead uses `term_documents.size()` — the number of distinct
indexed terms — as `total_docs`, contradicting its own documentation
(`IDF(t) = (number of documents in corpus) / (number of documents containing t)`).
On the two-document corpus `corpusAB` (three distinct terms) the code feeds
`3/2` to the logarithm for term `cat` while the spec prescribes `2/2 = 1`,
and `ln(3/2) ≠ ln(1)`. -/
theorem idf_uses_term_count_not_document_count :
    computeIDFArg stAB ("cat".toList) = 3 / 2 ∧
    specIDFArg stAB ("cat".toList) = 1 ∧
    stAB.documents.length = 2 ∧
    stAB.term_documents.length = 3 ∧
    Real.log ((computeIDFArg stAB ("cat".toList) : ℝ)) ≠
      Real.log ((specIDFArg stAB ("cat".toList) : ℝ)) := by
  have hlen : stAB.term_documents.length = 3 := by decide
  have hdlen : stAB.documents.length = 2 := by decide
  have h1 : computeIDFArg stAB ("cat".toList) = 3 / 2 := by
    rw [computeIDFArg_eq stAB ("cat".toList) [0] (by decide), hlen]
    norm_num
  have h2 : specIDFArg stAB ("cat".toList) = 1 := by
    rw [specIDFArg_eq stAB ("cat".toList) [0] (by decide), hdlen]
    norm_num
  refine ⟨h1, h2, hdlen, hlen, ?_⟩
  rw [h1, h2]
  push_cast
  rw [Real.log_one]
  exact ne_of_gt (Real.log_pos (by norm_num))

/-- Claim C2: the claim says the AND candidate set is the intersection of
`term_documents[t]` over all query stems, empty whenever any stem is absent,
regardless of its position.  In `findCommonDocuments` an empty running set is
re-unioned with the next term's documents, so an absent FIRST stem is simply
ignored: on `corpusAB` the query `frog cat` (`frog` occurs nowhere) yields
`{0}` while the intersection prescribed by the spec is empty. -/
theorem and_candidates_restart_on_empty :
    alFind? stAB.term_documents ("frog".toList) = none ∧
    (findCommonDocuments stAB (stemLine ("frog cat".toList))).1 = [0] ∧
    specANDCandidates stAB (stemLine ("frog cat".toList)) = [] := by
  decide

/-- Claim C3: the claim says `search` leaves `documents`, `term_occurrences`
and `term_documents` unchanged.  But the lookups in `findCommonDocuments`,
`getRelevantScores` and `computeTF` use `std::map::operator[]`, which
default-inserts missing keys: searching `corpusAB` for the unindexed term
`frog` inserts an empty entry `frog → {}` into `term_documents`, and since
`computeIDF` divides by `term_documents.size()`, the IDF argument for `cat`
changes from `3/2` to `2` after that search — repeating a search can thus
change scores. -/
theorem search_inserts_into_term_documents :
    alFind? stAB.term_documents ("frog".toList) = none ∧
    alFind? (searchIndexAfter stAB ("frog".toList) true).term_documents
      ("frog".toList) = some [] ∧
    computeIDFArg stAB ("cat".toList) = 3 / 2 ∧
    computeIDFArg (searchIndexAfter stAB ("frog".toList) true) ("cat".toList) = 2 := by
  refine ⟨by decide, by decide, ?_, ?_⟩
  · rw [computeIDFArg_eq stAB ("cat".toList) [0] (by decide),
      show stAB.term_documents.length = 3 by decide]
    norm_num
  · rw [computeIDFArg_eq (searchIndexAfter stAB ("frog".toList) true) ("cat".toList) [0]
      (by decide),
      show (searchIndexAfter stAB ("frog".toList) true).term_documents.length = 4 by decide]
    norm_num

/-- Claim C4: the claim says `save()` then `load()` reconstructs an equal
index for every corpus indexed from scratch, including ones containing an
empty `.txt` file.  Two failures:
(i) on `corpusMixed` (an empty file plus `cats and dogs`) the save and the
load both complete, but `indexDocument` created `term_occurrences[0] = {}`
for the empty document while `loadFromFiles` only creates `term_occurrences`
entries while iterating occurrences, so after reload key `0` is absent and
the key sets of `term_occurrences` differ (spec invariant I3 is broken);
(ii) on `corpusEmptyFile` (only the empty file) the artifacts are still
written — `getIndexSize()` is 1 — but no stem was ever indexed, so
`term_documents.json` is JSON `null` and `load` throws in
`get<std::map<...>>()` instead of reconstructing anything. -/
theorem save_load_drops_empty_document_entry :
    (indexCorpusDirectory corpusMixed).2 = some artifactsMixed ∧
    alFind? (indexCorpusDirectory corpusMixed).1.term_occurrences 0 = some [] ∧
    loadFromFiles artifactsMixed = some reloadedMixed ∧
    alFind? reloadedMixed.term_occurrences 0 = none ∧
    alFind? reloadedMixed.documents 0 =
      alFind? (indexCorpusDirectory corpusMixed).1.documents 0 ∧
    alFind? reloadedMixed.documents 1 =
      alFind? (indexCorpusDirectory corpusMixed).1.documents 1 ∧
    (indexCorpusDirectory corpusEmptyFile).1.documents.length = 1 ∧
    (indexCorpusDirectory corpusEmptyFile).2 = some artifactsEmptyOnly ∧
    artifactsEmptyOnly.term_documents_json = none ∧
    loadFromFiles artifactsEmptyOnly = none := by
  decide

/-- Claim C8 (counterexample): stemming is not idempotent:
`stem("cease") = "ceas"` (as in the spec's own scenario table), but stemming
the result again applies step 1a (`s` → ∅) and yields `"cea"`. -/
theorem stem_not_idempotent_on_cease :
    stem (stem ("cease".toList)) ≠ stem ("cease".toList) := by
  decide

/-- Claim C8 (amended): the stemmer is not idempotent on already-stemmed
forms; concretely `stem("cease") = "ceas"` while `stem("ceas") = "cea"`. -/
theorem stem_cease_then_ceas_then_cea :
    stem ("cease".toList) = "ceas".toList ∧
    stem ("ceas".toList) = "cea".toList ∧
    "cea".toList ≠ "ceas".toList := by
  decide

/-- Claim C5 (counterexample): the claim says a sub-word is emitted iff its
LOWERCASE form has length ≥ 3 and is not a stop word.  `stemLine` passes the
raw surface word to `checkWordStemmable`, whose stop-word lookup is
case-sensitive: the line `The` — whose lowercase form `the` is a stop word,
so the claim predicts no stem — produces a stem. -/
theorem capitalized_stopword_is_emitted :
    stemLine ("The".toList) =
      [{ index := 0, original := "The".toList, stemmed := "the".toList }] ∧
    STOPWORDS.contains (String.mk (stringToLower ("The".toList))) = true ∧
    (stringToLower ("The".toList)).length ≥ 3 := by
  decide

/-- Claim C9 (counterexample): the claim says construction fails iff the
corpus path refers to an existing regular file and succeeds for any existing
directory.  The constructor's test `corpus_directory_path.has_filename()` is
purely syntactic and never consults the filesystem: on a filesystem where
`corpus` is an existing directory (and no regular file), constructing with
path `corpus` still throws. -/
theorem ctor_throws_on_existing_directory_path :
    fsWithCorpusDir ("corpus".toList) = some FSEntry.directory ∧
    searchEngineCtorThrows ("corpus".toList) = true ∧
    searchEngineCtorThrows ("corpus/".toList) = false := by
  refine ⟨by decide, by decide, by decide⟩

/-- Claim C10: the claim says `getm`, `containsVowel`, `doubleConsonantSuffix`
and `endsCVC` restore the working word on every execution path.  The first
three do (each return site assigns `data = old_data` or returns before any
mutation), but `endsCVC` truncates `data` BEFORE its `len < 3` early return
and that path does not restore: `endsCVC(1)` on `abe` returns `false`
leaving `data = "ab"`, and step 5a consequently rewrites `abe` to `a`
(instead of `ab`). -/
theorem endsCVC_short_path_leaves_data_truncated :
    (∀ d k, (getmRun d k).2 = d) ∧
    (∀ d k, (containsVowelRun d k).2 = d) ∧
    (∀ d k, (doubleConsonantSuffixRun d k).2 = d) ∧
    (endsCVCRun ("abe".toList) 1).2 = "ab".toList ∧
    (endsCVCRun ("abe".toList) 1).2 ≠ "abe".toList ∧
    step5a ("abe".toList) = "a".toList := by
  refine ⟨?_, ?_, ?_, by decide, by decide, by decide⟩
  · intro d k
    simp only [getmRun]
    repeat' split
    all_goals rfl
  · intro d k
    simp only [containsVowelRun]
    repeat' split
    all_goals rfl
  · intro d k
    simp only [doubleConsonantSuffixRun]
    repeat' split
    all_goals rfl

/-! ## General lemmas about the tokenizer and the maps -/

/-- `operator[]` on a present key returns the stored value and leaves the map
unchanged. -/
theorem alGetOrInsert_of_found {α β : Type} [BEq α] (m : List (α × β)) (k : α)
    (dflt v : β) (h : alFind? m k = some v) : alGetOrInsert m k dflt = (v, m) := by
  unfold alGetOrInsert
  rw [h]

/-- Dropping as many elements as `takeWhile` keeps is `dropWhile`. -/
theorem drop_length_takeWhile {α : Type} (p : α → Bool) (l : List α) :
    l.drop (l.takeWhile p).length = l.dropWhile p := by
  induction l with
  | nil => rfl
  | cons c cs ih =>
    by_cases hp : p c
    · simp [List.takeWhile_cons, List.dropWhile_cons, hp, ih]
    · simp [List.takeWhile_cons, List.dropWhile_cons, hp]

/-- `dropWhile` preserves the prefix relation. -/
theorem isPrefix_dropWhile {α : Type} (p : α → Bool) :
    ∀ {l₁ l₂ : List α}, l₁ <+: l₂ → l₁.dropWhile p <+: l₂.dropWhile p := by
  intro l₁
  induction l₁ with
  | nil => intro l₂ _; simp
  | cons c cs ih =>
    intro l₂ h
    obtain ⟨u, hu⟩ := h
    subst hu
    by_cases hp : p c
    · simpa [List.dropWhile_cons, hp] using ih ⟨u, rfl⟩
    · exact ⟨u, by simp [List.dropWhile_cons, hp]⟩

/-- Shifting a prefix across one processed fragment: if `pre ++ c :: rest`
is a prefix of `L.drop i`, then `rest` is a prefix of
`L.drop (i + (pre.length + 1))`. -/
theorem isPrefix_drop_shift {α : Type} {pre rest : List α} {c : α} {L : List α}
    {i : Nat} (h : (pre ++ c :: rest) <+: L.drop i) :
    rest <+: L.drop (i + (pre.length + 1)) := by
  obtain ⟨u, hu⟩ := h
  refine ⟨u, ?_⟩
  rw [← List.drop_drop, ← hu]
  have : pre ++ c :: rest ++ u = (pre ++ [c]) ++ (rest ++ u) := by simp
  rw [this, List.drop_left']
  simp

/-- The `takeWhile`/`dropWhile` decomposition of a word at its first
punctuation character. -/
theorem takeWhile_append_eq {α : Type} {w rest : List α} {p : α → Bool}
    (hd : w.dropWhile p = rest) : w.takeWhile p ++ rest = w := by
  rw [← hd, List.takeWhile_append_dropWhile]

/-- Branch equation for `processWordF` when the word has no punctuation left
(first component). -/
theorem processWordF_fst_nil {n : Nat} {w : List Char} {i : Nat}
    (hd : w.dropWhile (fun c => !PUNCTUATION.contains c) = []) :
    (processWordF (n + 1) w i).1 =
      (if checkWordStemmable (w.takeWhile (fun c => !PUNCTUATION.contains c)) then
        [stemWord (w.takeWhile (fun c => !PUNCTUATION.contains c)) i] else []) := by
  simp only [processWordF]
  rw [hd]

/-- Branch equation for `processWordF` when the word has no punctuation left
(second component). -/
theorem processWordF_snd_nil {n : Nat} {w : List Char} {i : Nat}
    (hd : w.dropWhile (fun c => !PUNCTUATION.contains c) = []) :
    (processWordF (n + 1) w i).2 =
      i + (w.takeWhile (fun c => !PUNCTUATION.contains c)).length + 1 := by
  simp only [processWordF]
  rw [hd]

/-- Branch equation for `processWordF` at the first punctuation character
(first component). -/
theorem processWordF_fst_cons {n : Nat} {w : List Char} {i : Nat} {c : Char}
    {rest : List Char}
    (hd : w.dropWhile (fun c => !PUNCTUATION.contains c) = c :: rest) :
    (processWordF (n + 1) w i).1 =
      (if decide ((w.takeWhile (fun c => !PUNCTUATION.contains c)).length > 0)
          && checkWordStemmable (w.takeWhile (fun c => !PUNCTUATION.contains c)) then
        [stemWord (w.takeWhile (fun c => !PUNCTUATION.contains c)) i] else []) ++
      (processWordF n rest
        (i + (w.takeWhile (fun c => !PUNCTUATION.contains c)).length + 1)).1 := by
  simp only [processWordF]
  rw [hd]

/-- Branch equation for `processWordF` at the first punctuation character
(second component). -/
theorem processWordF_snd_cons {n : Nat} {w : List Char} {i : Nat} {c : Char}
    {rest : List Char}
    (hd : w.dropWhile (fun c => !PUNCTUATION.contains c) = c :: rest) :
    (processWordF (n + 1) w i).2 =
      (processWordF n rest
        (i + (w.takeWhile (fun c => !PUNCTUATION.contains c)).length + 1)).2 := by
  simp only [processWordF]
  rw [hd]

/-- After processing one word with enough fuel the running column has advanced
by the word's length plus one (the consumed space). -/
theorem processWordF_snd :
    ∀ (fuel : Nat) (w : List Char) (i : Nat), w.length < fuel →
      (processWordF fuel w i).2 = i + w.length + 1 := by
  intro fuel
  induction fuel with
  | zero => intro w i h; omega
  | succ n ih =>
    intro w i h
    cases hd : w.dropWhile (fun c => !PUNCTUATION.contains c) with
    | nil =>
      have hw := takeWhile_append_eq hd
      rw [List.append_nil] at hw
      rw [processWordF_snd_nil hd, hw]
    | cons c rest =>
      have hw := takeWhile_append_eq hd
      have hlen := congrArg List.length hw
      simp only [List.length_append, List.length_cons] at hlen
      rw [processWordF_snd_cons hd, ih rest _ (by omega)]
      omega

/-- Every stem emitted by the punctuation loop passed `checkWordStemmable` on
its raw surface word. -/
theorem mem_processWordF_stemmable :
    ∀ (fuel : Nat) (w : List Char) (i : Nat) (s : Stem),
      s ∈ (processWordF fuel w i).1 → checkWordStemmable s.original = true := by
  intro fuel
  induction fuel with
  | zero => intro w i s h; simp [processWordF] at h
  | succ n ih =>
    intro w i s h
    cases hd : w.dropWhile (fun c => !PUNCTUATION.contains c) with
    | nil =>
      rw [processWordF_fst_nil hd] at h
      by_cases hc : checkWordStemmable (w.takeWhile (fun c => !PUNCTUATION.contains c))
      · rw [if_pos hc] at h
        rw [List.mem_singleton.mp h]
        exact hc
      · rw [if_neg hc] at h
        simp at h
    | cons c rest =>
      rw [processWordF_fst_cons hd, List.mem_append] at h
      rcases h with h | h
      · by_cases hc :
          (decide ((w.takeWhile (fun c => !PUNCTUATION.contains c)).length > 0)
            && checkWordStemmable (w.takeWhile (fun c => !PUNCTUATION.contains c))) = true
        · rw [if_pos hc] at h
          rw [List.mem_singleton.mp h]
          exact (Bool.and_eq_true_iff.mp hc).2
        · rw [if_neg hc] at h
          simp at h
      · exact ih rest _ s h

/-- Every stem emitted by the punctuation loop sits at its recorded column:
if the word being processed is a prefix of `L.drop i`, each produced stem's
surface word is a prefix of `L` dropped at the stem's index. -/
theorem mem_processWordF_position :
    ∀ (fuel : Nat) (w : List Char) (i : Nat) (L : List Char),
      w <+: L.drop i →
      ∀ s ∈ (processWordF fuel w i).1, s.original <+: L.drop s.index := by
  intro fuel
  induction fuel with
  | zero => intro w i L _ s h; simp [processWordF] at h
  | succ n ih =>
    intro w i L hw s h
    cases hd : w.dropWhile (fun c => !PUNCTUATION.contains c) with
    | nil =>
      rw [processWordF_fst_nil hd] at h
      by_cases hc : checkWordStemmable (w.takeWhile (fun c => !PUNCTUATION.contains c))
      · rw [if_pos hc] at h
        rw [List.mem_singleton.mp h]
        exact ( List.takeWhile_prefix _).trans hw
      · rw [if_neg hc] at h
        simp at h
    | cons c rest =>
      rw [processWordF_fst_cons hd, List.mem_append] at h
      rcases h with h | h
      · by_cases hc :
          (decide ((w.takeWhile (fun c => !PUNCTUATION.contains c)).length > 0)
            && checkWordStemmable (w.takeWhile (fun c => !PUNCTUATION.contains c))) = true
        · rw [if_pos hc] at h
          rw [List.mem_singleton.mp h]
          exact ( List.takeWhile_prefix _).trans hw
        · rw [if_neg hc] at h
          simp at h
      · refine ih rest _ L ?_ s h
        have hsplit : (w.takeWhile (fun c => !PUNCTUATION.contains c)) ++ c :: rest = w :=
          takeWhile_append_eq hd
        exact isPrefix_drop_shift (by rw [hsplit]; exact hw)

/-- Branch equation for `stemLoopF` when the line has no space left. -/
theorem stemLoopF_nil {n : Nat} {t : List Char} {i : Nat}
    (hne : t.isEmpty = false) (hd : t.dropWhile (fun c => !(c == ' ')) = []) :
    stemLoopF (n + 1) t i = (processWord (t.takeWhile (fun c => !(c == ' '))) i).1 := by
  simp only [stemLoopF]
  rw [hne, if_neg Bool.false_ne_true, hd]

/-- Branch equation for `stemLoopF` at the first space. -/
theorem stemLoopF_cons {n : Nat} {t : List Char} {i : Nat} {c : Char}
    {rest : List Char}
    (hne : t.isEmpty = false) (hd : t.dropWhile (fun c => !(c == ' ')) = c :: rest) :
    stemLoopF (n + 1) t i =
      (processWord (t.takeWhile (fun c => !(c == ' '))) i).1 ++
      stemLoopF n rest (processWord (t.takeWhile (fun c => !(c == ' '))) i).2 := by
  simp only [stemLoopF]
  rw [hne, if_neg Bool.false_ne_true, hd]

/-- Filtering and mapping a possibly-empty head fragment, final-fragment
form (the emission guard of the no-punctuation branch). -/
theorem filter_map_lastfrag (i : Nat) (pre : List Char) :
    ((if pre.isEmpty then ([] : List (Nat × List Char)) else [(i, pre)]).filter
        (fun pr => checkWordStemmable pr.2)).map (fun pr => stemWord pr.2 pr.1) =
      (if checkWordStemmable pre then [stemWord pre i] else []) := by
  cases pre with
  | nil => rfl
  | cons a l =>
    simp only [List.isEmpty_cons]
    rw [if_neg Bool.false_ne_true]
    cases hC : checkWordStemmable (a :: l) with
    | true => simp [List.filter_cons, hC]
    | false => simp [List.filter_cons, hC]

/-- Filtering and mapping a possibly-empty head fragment, inner-fragment form
(the emission guard before a punctuation character). -/
theorem filter_map_headfrag (i : Nat) (pre : List Char) :
    ((if pre.isEmpty then ([] : List (Nat × List Char)) else [(i, pre)]).filter
        (fun pr => checkWordStemmable pr.2)).map (fun pr => stemWord pr.2 pr.1) =
      (if decide (pre.length > 0) && checkWordStemmable pre then [stemWord pre i]
       else []) := by
  cases pre with
  | nil => rfl
  | cons a l =>
    simp only [List.isEmpty_cons]
    rw [if_neg Bool.false_ne_true,
      show decide ((a :: l).length > 0) = true from decide_eq_true (by simp)]
    cases hC : checkWordStemmable (a :: l) with
    | true => simp [List.filter_cons, hC]
    | false => simp [List.filter_cons, hC]

/-- Branch equation for `subWordsF` when the word has no punctuation left. -/
theorem subWordsF_nil {n : Nat} {w : List Char} {i : Nat}
    (hd : w.dropWhile (fun c => !PUNCTUATION.contains c) = []) :
    subWordsF (n + 1) w i =
      (if (w.takeWhile (fun c => !PUNCTUATION.contains c)).isEmpty then []
       else [(i, w.takeWhile (fun c => !PUNCTUATION.contains c))]) := by
  simp only [subWordsF]
  rw [hd]

/-- Branch equation for `subWordsF` at the first punctuation character. -/
theorem subWordsF_cons {n : Nat} {w : List Char} {i : Nat} {c : Char}
    {rest : List Char}
    (hd : w.dropWhile (fun c => !PUNCTUATION.contains c) = c :: rest) :
    subWordsF (n + 1) w i =
      (if (w.takeWhile (fun c => !PUNCTUATION.contains c)).isEmpty then []
       else [(i, w.takeWhile (fun c => !PUNCTUATION.contains c))]) ++
      subWordsF n rest
        (i + (w.takeWhile (fun c => !PUNCTUATION.contains c)).length + 1) := by
  simp only [subWordsF]
  rw [hd]

/-- The stems produced by the punctuation loop are exactly the stemmable
sub-words it considers, stemmed in place. -/
theorem processWordF_fst_eq_subWords :
    ∀ (fuel : Nat) (w : List Char) (i : Nat),
      (processWordF fuel w i).1 =
        ((subWordsF fuel w i).filter (fun pr => checkWordStemmable pr.2)).map
          (fun pr => stemWord pr.2 pr.1) := by
  intro fuel
  induction fuel with
  | zero => intro w i; rfl
  | succ n ih =>
    intro w i
    cases hd : w.dropWhile (fun c => !PUNCTUATION.contains c) with
    | nil =>
      rw [processWordF_fst_nil hd, subWordsF_nil hd, filter_map_lastfrag]
    | cons c rest =>
      rw [processWordF_fst_cons hd, subWordsF_cons hd, List.filter_append,
        List.map_append, filter_map_headfrag,
        ih rest (i + (w.takeWhile (fun c => !PUNCTUATION.contains c)).length + 1)]

/-- `processWordF_fst_eq_subWords` phrased through `processWord`. -/
theorem processWord_fst_eq_subWords (w : List Char) (i : Nat) :
    (processWord w i).1 =
      ((subWordsF (w.length + 1) w i).filter (fun pr => checkWordStemmable pr.2)).map
        (fun pr => stemWord pr.2 pr.1) :=
  processWordF_fst_eq_subWords (w.length + 1) w i

/-- The stems produced by the outer word loop are exactly the stemmable
sub-words of the line, stemmed in place. -/
theorem stemLoopF_eq_subWords :
    ∀ (fuel : Nat) (t : List Char) (i : Nat),
      stemLoopF fuel t i =
        ((lineSubWordsF fuel t i).filter (fun pr => checkWordStemmable pr.2)).map
          (fun pr => stemWord pr.2 pr.1) := by
  intro fuel
  induction fuel with
  | zero => intro t i; rfl
  | succ n ih =>
    intro t i
    cases ht : t.isEmpty with
    | true =>
      rw [show stemLoopF (n + 1) t i = [] by simp only [stemLoopF]; rw [ht, if_pos rfl],
        show lineSubWordsF (n + 1) t i = [] by
          simp only [lineSubWordsF]; rw [ht, if_pos rfl]]
      rfl
    | false =>
      cases hd : t.dropWhile (fun c => !(c == ' ')) with
      | nil =>
        rw [stemLoopF_nil ht hd,
          show lineSubWordsF (n + 1) t i =
              subWordsF ((t.takeWhile (fun c => !(c == ' '))).length + 1)
                (t.takeWhile (fun c => !(c == ' '))) i by
            simp only [lineSubWordsF]; rw [ht, if_neg Bool.false_ne_true, hd]]
        exact processWord_fst_eq_subWords _ _
      | cons c rest =>
        rw [stemLoopF_cons ht hd,
          show lineSubWordsF (n + 1) t i =
              subWordsF ((t.takeWhile (fun c => !(c == ' '))).length + 1)
                (t.takeWhile (fun c => !(c == ' '))) i ++
              lineSubWordsF n rest
                (processWord (t.takeWhile (fun c => !(c == ' '))) i).2 by
            simp only [lineSubWordsF]; rw [ht, if_neg Bool.false_ne_true, hd],
          List.filter_append, List.map_append, ih rest _,
          processWord_fst_eq_subWords]

/-- The tokenizer's output is exactly the stemmable sub-words of the line,
stemmed in place: `stemLine` equals `lineSubWords` filtered by the raw
`checkWordStemmable` test and mapped through `stemWord`. -/
theorem stemLine_eq_subWords (text : List Char) :
    stemLine text =
      ((lineSubWords text).filter (fun pr => checkWordStemmable pr.2)).map
        (fun pr => stemWord pr.2 pr.1) :=
  stemLoopF_eq_subWords _ _ _

/-- Lifting `mem_processWordF_stemmable` through the outer word loop. -/
theorem mem_stemLoopF_stemmable :
    ∀ (fuel : Nat) (t : List Char) (i : Nat) (s : Stem),
      s ∈ stemLoopF fuel t i → checkWordStemmable s.original = true := by
  intro fuel
  induction fuel with
  | zero => intro t i s h; simp [stemLoopF] at h
  | succ n ih =>
    intro t i s h
    cases ht : t.isEmpty with
    | true =>
      rw [show stemLoopF (n + 1) t i = [] by simp only [stemLoopF]; rw [ht, if_pos rfl]] at h
      simp at h
    | false =>
      cases hd : t.dropWhile (fun c => !(c == ' ')) with
      | nil =>
        rw [stemLoopF_nil ht hd] at h
        exact mem_processWordF_stemmable _ _ _ s h
      | cons c rest =>
        rw [stemLoopF_cons ht hd, List.mem_append] at h
        rcases h with h | h
        · exact mem_processWordF_stemmable _ _ _ s h
        · exact ih rest _ s h

/-- Lifting `mem_processWordF_position` through the outer word loop. -/
theorem mem_stemLoopF_position :
    ∀ (fuel : Nat) (t : List Char) (i : Nat) (L : List Char), t.length < fuel →
      t <+: L.drop i →
      ∀ s ∈ stemLoopF fuel t i, s.original <+: L.drop s.index := by
  intro fuel
  induction fuel with
  | zero => intro t i L hf _ s h; simp [stemLoopF] at h
  | succ n ih =>
    intro t i L hf hp s h
    cases ht : t.isEmpty with
    | true =>
      rw [show stemLoopF (n + 1) t i = [] by simp only [stemLoopF]; rw [ht, if_pos rfl]] at h
      simp at h
    | false =>
      cases hd : t.dropWhile (fun c => !(c == ' ')) with
      | nil =>
        rw [stemLoopF_nil ht hd] at h
        exact mem_processWordF_position _ _ _ L
          (( List.takeWhile_prefix _).trans hp) s h
      | cons c rest =>
        rw [stemLoopF_cons ht hd, List.mem_append] at h
        have hsplit : (t.takeWhile (fun c => !(c == ' '))) ++ c :: rest = t :=
          takeWhile_append_eq hd
        rcases h with h | h
        · exact mem_processWordF_position _ _ _ L
            (( List.takeWhile_prefix _).trans hp) s h
        · have hsnd : (processWord (t.takeWhile (fun c => !(c == ' '))) i).2 =
              i + (t.takeWhile (fun c => !(c == ' '))).length + 1 :=
            processWordF_snd _ _ _ (Nat.lt_succ_self _)
          rw [hsnd] at h
          have hlen := congrArg List.length hsplit
          simp only [List.length_append, List.length_cons] at hlen
          refine ih rest _ L (by omega) ?_ s h
          have hp2 : ((t.takeWhile (fun c => !(c == ' '))) ++ c :: rest) <+: L.drop i := by
            rw [hsplit]; exact hp
          have := isPrefix_drop_shift hp2
          rw [show i + (t.takeWhile (fun c => !(c == ' '))).length + 1 =
            i + ((t.takeWhile (fun c => !(c == ' '))).length + 1) by omega]
          exact this

/-- Every emitted stem satisfies the raw stemmability check. -/
theorem mem_stemLine_stemmable (text : List Char) (s : Stem)
    (h : s ∈ stemLine text) : checkWordStemmable s.original = true := by
  unfold stemLine at h
  exact mem_stemLoopF_stemmable _ _ _ s h

/-- The trimmed working line is a prefix of the original line dropped at the
leading-whitespace count. -/
theorem trimmed_isPrefix_drop (text : List Char) :
    ((text.rdropWhile isSpaceChar).dropWhile isSpaceChar) <+:
      text.drop ((text.takeWhile isSpaceChar).length) := by
  rw [drop_length_takeWhile]
  exact isPrefix_dropWhile isSpaceChar ( List.rdropWhile_prefix isSpaceChar text)

/-! ## Theorems for the remaining claims -/

/-- Claim C7: the term-frequency factor `computeTF(t, d)` equals the number of
stored occurrences of `t` in `d` divided by the number of distinct terms
recorded for `d` (the size of the inner map of `term_occurrences[d]`), not
the total token count. -/
theorem tf_is_occurrences_over_distinct_terms
    (st : EngineState) (t : List Char) (d : Nat)
    (inner : List (List Char × List Occurrence)) (occs : List Occurrence)
    (h1 : alFind? st.term_occurrences d = some inner)
    (h2 : alFind? inner t = some occs) :
    (computeTF st t d).1 = (occs.length : ℚ) / (inner.length : ℚ) := by
  have e1 : alGetOrInsert st.term_occurrences d
      ([] : List (List Char × List Occurrence)) = (inner, st.term_occurrences) :=
    alGetOrInsert_of_found _ _ _ _ h1
  have e2 : alGetOrInsert inner t ([] : List Occurrence) = (occs, inner) :=
    alGetOrInsert_of_found _ _ _ _ h2
  simp only [computeTF, e1, e2]

/-- Witness for claim C7 on the one-document corpus whose text is
`dogs dog dogging`: three stored occurrences of `dog`, one distinct term, so
the factor is `3` — which also shows the divisor is the distinct-term count
(with the total token count 3 the factor would have been 1). -/
theorem tf_is_occurrences_over_distinct_terms_witness :
    (computeTF stRepeat ("dog".toList) 0).1 = 3 := by
  rw [tf_is_occurrences_over_distinct_terms stRepeat ("dog".toList) 0
    ((alFind? stRepeat.term_occurrences 0).getD [])
    ((alFind? ((alFind? stRepeat.term_occurrences 0).getD []) ("dog".toList)).getD [])
    (by decide) (by decide)]
  rw [show ((alFind? ((alFind? stRepeat.term_occurrences 0).getD [])
      ("dog".toList)).getD []).length = 3 by decide]
  rw [show ((alFind? stRepeat.term_occurrences 0).getD []).length = 1 by decide]
  norm_num

/-- Claim C9 (amended): construction fails iff the path string has a
non-empty trailing filename component — equivalently, iff it is non-empty and
does not end in a separator.  The check is purely syntactic
(`path::has_filename()`); the filesystem is never consulted, which is why it
also fails for existing directories written without a trailing slash. -/
theorem ctor_throws_iff_trailing_filename :
    ∀ s : List Char,
      searchEngineCtorThrows s = true ↔ (s ≠ [] ∧ s.getLast? ≠ some '/') := by
  intro s
  unfold searchEngineCtorThrows pathHasFilename pathFilename
  have hlast : s.getLast? = s.reverse.head? := by rw [List.head?_reverse]
  cases hr : s.reverse with
  | nil =>
    have hs : s = [] := List.reverse_eq_nil_iff.mp hr
    subst hs
    simp
  | cons c rest =>
    have hs : s ≠ [] := by
      intro hcon
      subst hcon
      simp at hr
    rw [hlast, hr]
    by_cases hc : c = '/'
    · subst hc
      simp [List.takeWhile_cons, hs]
    · simp [List.takeWhile_cons, hs, hc]

/-- Witness for claim C9 (amended) at the path `corpus`. -/
theorem ctor_throws_iff_trailing_filename_witness :
    searchEngineCtorThrows ("corpus".toList) = true :=
  (ctor_throws_iff_trailing_filename ("corpus".toList)).mpr (by decide)

/-- Claim C5 (amended): the tokenizer's filter is applied to the RAW surface
word, in both directions.  (1) The emitted stems are EXACTLY the sub-words
that pass `checkWordStemmable` on the raw word, stemmed in place — so a
sub-word is emitted iff its raw form has length ≥ 3 and is, case-sensitively,
not in the stop-word set.  (2) Consequently every emitted stem's surface word
has length ≥ 3 and is not (case-sensitively) a stop word.  (3) The line `The`
has the single sub-word `The` at column 0, which passes the raw filter and is
emitted although its lowercase form is a stop word. -/
theorem tokenizer_filter_is_case_sensitive :
    (∀ text : List Char,
        stemLine text =
          ((lineSubWords text).filter (fun pr => checkWordStemmable pr.2)).map
            (fun pr => stemWord pr.2 pr.1)) ∧
    (∀ (text : List Char) (s : Stem), s ∈ stemLine text →
        3 ≤ s.original.length ∧ STOPWORDS.contains (String.mk s.original) = false) ∧
    lineSubWords ("The".toList) = [(0, "The".toList)] ∧
    stemLine ("The".toList) =
      [{ index := 0, original := "The".toList, stemmed := "the".toList }] := by
  refine ⟨stemLine_eq_subWords, ?_, by decide, by decide⟩
  intro text s h
  have hc := mem_stemLine_stemmable text s h
  simp only [checkWordStemmable, WORD_STEM_THRESHOLD, Bool.not_eq_true',
    Bool.or_eq_false_iff, decide_eq_false_iff_not, Nat.not_lt] at hc
  exact hc

/-- Witness for claim C5 (amended): the stem emitted for the line `The`. -/
theorem tokenizer_filter_is_case_sensitive_witness :
    3 ≤ ("The".toList).length ∧
      STOPWORDS.contains (String.mk ("The".toList)) = false :=
  tokenizer_filter_is_case_sensitive.2.1 ("The".toList)
    { index := 0, original := "The".toList, stemmed := "the".toList } (by decide)

/-- Claim C6: every stem emitted by the tokenizer records as `index` the
0-based column of its surface word in the original line — the slice of the
line starting at that column begins with the surface word — and in
particular `hello#world` yields `hello` at column 0 and `world` at column 6,
and `   dog.` yields `dog` at column 3. -/
theorem stem_index_is_column_in_line :
    (∀ (text : List Char) (s : Stem), s ∈ stemLine text →
        s.original <+: text.drop s.index) ∧
    stemLine ("hello#world".toList) =
      [{ index := 0, original := "hello".toList, stemmed := "hello".toList },
       { index := 6, original := "world".toList, stemmed := "world".toList }] ∧
    stemLine ("   dog.".toList) =
      [{ index := 3, original := "dog".toList, stemmed := "dog".toList }] := by
  refine ⟨?_, by decide, by decide⟩
  intro text s h
  unfold stemLine at h
  exact mem_stemLoopF_position _ _ _ text (Nat.lt_succ_self _)
    (trimmed_isPrefix_drop text) s h

/-- Witness for claim C6: applying the theorem to the `world` stem of
`hello#world`. -/
theorem stem_index_is_column_in_line_witness :
    ("world".toList) <+: (("hello#world".toList).drop 6) :=
  stem_index_is_column_in_line.1 ("hello#world".toList)
    { index := 6, original := "world".toList, stemmed := "world".toList } (by decide)

end Search100
